import Mathlib

/-!
Verification development for the JSAF Auditor.

The definitions below are a shallow embedding of the result-completeness
auditing engine of `src/app.py`: the non-zero-ratio classifier
(`nz_ratio_1d`, `nz_ratio_mesh`), the per-owner aggregation loops of
`render_results_1d` / `render_mesh_results` (`result_index`, `bar_summary` /
`panel_summary`, and the session counts), and the reference/orphan/empty
checks of `render_validation`.  Numeric values are modelled as rationals;
Python dictionaries keyed by strings are modelled as functions
`String → Option _`; JSON fields that may be absent are modelled as `Option`
(Python's `dict.get` with a default).
-/

set_option maxHeartbeats 1000000

set_option allowUnsafeReducibility true

attribute [semireducible] Rat.mul Rat.div Rat.inv Rat.add Rat.sub Rat.neg

namespace JSAF

/-- The near-zero tolerance of the classifier (`1e-6` in the source). -/
def tol : ℚ := 1 / 1000000

/-- The six 1D internal-force components (`COMPS_1D` in the source). -/
inductive Comp1D
  | aN | aVy | aVz | aMx | aMy | aMz
deriving DecidableEq

/-- `COMPS_1D = ['aN', 'aVy', 'aVz', 'aMx', 'aMy', 'aMz']`. -/
def COMPS_1D : List Comp1D := [.aN, .aVy, .aVz, .aMx, .aMy, .aMz]

/-- The eight mesh stress components (`COMPS_MESH` in the source). -/
inductive CompMesh
  | amx | amy | amxy | avx | avy | anx | any | anxy
deriving DecidableEq

/-- `COMPS_MESH = ['amx', 'amy', 'amxy', 'avx', 'avy', 'anx', 'any', 'anxy']`. -/
def COMPS_MESH : List CompMesh := [.amx, .amy, .amxy, .avx, .avy, .anx, .any, .anxy]

/-- A result record: owner id (`r.get("Member", "")`), load id
(`r.get("Load", "")`), and the per-component value sequences
(`r.get(c, [])` for each component name `c`). -/
structure RRec (C : Type) where
  Member : String
  Load : String
  vals : C → List ℚ

/-- A `Results1D` record. -/
abbrev Result1D := RRec Comp1D

/-- A `MeshResults` record. -/
abbrev MeshResult := RRec CompMesh

/-- `any(abs(v) > 1e-6 for v in r.get(c, []))`. -/
def compNonzero {C : Type} (r : RRec C) (c : C) : Bool :=
  (r.vals c).any (fun v => decide (tol < |v|))

/-- `nz = sum(1 for c in COMPS if any(abs(v) > 1e-6 for v in r.get(c, [])))`. -/
def nzCount {C : Type} (comps : List C) (r : RRec C) : ℕ :=
  (comps.filter (compNonzero r)).length

/-- `nz / total` where `total = len(COMPS)`. -/
def nzRatio {C : Type} (comps : List C) (r : RRec C) : ℚ :=
  (nzCount comps r : ℚ) / (comps.length : ℚ)

/-- `nz_ratio_1d` from the source. -/
def nz_ratio_1d (r : Result1D) : ℚ := nzRatio COMPS_1D r

/-- `nz_ratio_mesh` from the source. -/
def nz_ratio_mesh (r : MeshResult) : ℚ := nzRatio COMPS_MESH r

/-- One entry of `bar_summary` / `panel_summary`:
`{"nonzero": _, "zero": _, "max_vals": {c: _ for c in COMPS}}`. -/
@[ext]
structure OwnerSummary (C : Type) where
  nonzero : ℕ
  zero : ℕ
  max_vals : C → ℚ

/-- The initial entry `{"nonzero": 0, "zero": 0, "max_vals": {c: 0 ...}}`. -/
def initSummary (C : Type) : OwnerSummary C := ⟨0, 0, fun _ => 0⟩

/-- `vals = [abs(v) for v in r.get(c, [])]; if vals: mv[c] = max(mv[c], max(vals))`.
Folding `max` over the absolute values starting from `mv c` computes the same
update, and leaves `mv c` unchanged when the sequence is empty. -/
def updMax {C : Type} (r : RRec C) (mv : C → ℚ) : C → ℚ :=
  fun c => ((r.vals c).map (fun v => |v|)).foldl max (mv c)

/-- The effect of one loop iteration on the owner's summary entry:
increment `nonzero` when `ratio > 0` else `zero`, then update the maxima. -/
def updSummary {C : Type} (comps : List C) (s : OwnerSummary C) (r : RRec C) :
    OwnerSummary C :=
  { nonzero := if 0 < nzRatio comps r then s.nonzero + 1 else s.nonzero
    zero := if 0 < nzRatio comps r then s.zero else s.zero + 1
    max_vals := updMax r s.max_vals }

/-- One iteration's effect on the whole summary dictionary (the source first
inserts the initial entry when the owner id is not yet a key, then mutates it). -/
def stepSummary {C : Type} (comps : List C) (m : String → Option (OwnerSummary C))
    (r : RRec C) : String → Option (OwnerSummary C) :=
  fun bid =>
    if bid = r.Member then
      some (updSummary comps ((m r.Member).getD (initSummary C)) r)
    else m bid

/-- `bar_summary` / `panel_summary` after the loop over `results`. -/
def ownerSummary {C : Type} (comps : List C) (l : List (RRec C)) :
    String → Option (OwnerSummary C) :=
  l.foldl (stepSummary comps) (fun _ => none)

/-- `result_index[(bid, lid)] = r`, one iteration. -/
def stepIndex {C : Type} (m : String × String → Option (RRec C)) (r : RRec C) :
    String × String → Option (RRec C) :=
  fun k => if k = (r.Member, r.Load) then some r else m k

/-- `result_index` after the loop over `results`. -/
def resultIndex {C : Type} (l : List (RRec C)) : String × String → Option (RRec C) :=
  l.foldl stepIndex (fun _ => none)

/-- `total = len(results)`. -/
def totalCount {C : Type} (l : List (RRec C)) : ℕ := l.length

/-- `full = sum(1 for r in results if nz_ratio(r) == 1.0)`. -/
def fullCount {C : Type} (comps : List C) (l : List (RRec C)) : ℕ :=
  (l.filter (fun r => decide (nzRatio comps r = 1))).length

/-- `partial = sum(1 for r in results if 0 < nz_ratio(r) < 1.0)`. -/
def midCount {C : Type} (comps : List C) (l : List (RRec C)) : ℕ :=
  (l.filter (fun r => decide (0 < nzRatio comps r ∧ nzRatio comps r < 1))).length

/-- `empty = sum(1 for r in results if nz_ratio(r) == 0)`. -/
def emptyCount {C : Type} (comps : List C) (l : List (RRec C)) : ℕ :=
  (l.filter (fun r => decide (nzRatio comps r = 0))).length

/-- All absolute values of component `c` over the records owned by `bid`,
in input order (used to state what `max_vals` computes). -/
def ownerAbsVals {C : Type} (l : List (RRec C)) (bid : String) (c : C) : List ℚ :=
  (l.filter (fun r => decide (r.Member = bid))).flatMap
    (fun r => (r.vals c).map (fun v => |v|))

/-- The maximum of `ownerAbsVals`, defaulting to `0` when no elements are
present (spec §4.3: running maximum over absolute values, default 0). -/
def specOwnerMax {C : Type} (l : List (RRec C)) (bid : String) (c : C) : ℚ :=
  (ownerAbsVals l bid c).foldl max 0

/-! ### The document model for `render_validation`

Each collection field is `Option (List _)`: `none` models an absent top-level
key (`data.get(k, [])` yields `[]`), `some []` a key that is present with zero
records.  Entity fields that the validation reads with a bare `.get` are
`Option` (`none` models both an absent key and a JSON `null`, which the source
treats identically in every check it performs). -/

/-- A `Materials` record (only the fields validation reads). -/
structure Material where
  Id : String
deriving DecidableEq

/-- A `CrossSections` record (only the fields validation reads). -/
structure CrossSection where
  Id : String
  Name : Option String
  Materials : List String
deriving DecidableEq

/-- A `PointConnections` record (only the fields validation reads). -/
structure Node where
  Id : String
deriving DecidableEq

/-- A `CurveMembers` record (only the fields validation reads). -/
structure Bar where
  Id : String
  Name : Option String
  CrossSection : Option String
  Nodes : List String
deriving DecidableEq

/-- A `SurfaceMembers` record (only the fields validation reads). -/
structure Surface where
  Id : String
  Name : Option String
  Nodes : List String
deriving DecidableEq

/-- A `SurfaceMemberOpenings` record (only the fields validation reads). -/
structure Opening where
  Name : Option String
  Surface : Option String
deriving DecidableEq

/-- A `PointSupports` record (only the fields validation reads). -/
structure Support where
  Name : Option String
  Node : Option String
deriving DecidableEq

/-- The loaded JSAF document (the collections the audit engine reads;
load cases and combinations are kept as bare records since validation only
tests their presence). -/
structure Doc where
  Materials : Option (List Material)
  CrossSections : Option (List CrossSection)
  PointConnections : Option (List Node)
  CurveMembers : Option (List Bar)
  SurfaceMembers : Option (List Surface)
  SurfaceMemberOpenings : Option (List Opening)
  PointSupports : Option (List Support)
  LoadCases : Option (List String)
  LoadCombinations : Option (List String)
  Results1D : Option (List Result1D)
  MeshResults : Option (List MeshResult)

/-- `mat_ids = set(m.get("Id") for m in data.get("Materials", []))`
(a Python set; only membership is ever used, so a list is a faithful model). -/
def matIds (d : Doc) : List String := (d.Materials.getD []).map Material.Id

/-- `cs_ids`. -/
def csIds (d : Doc) : List String := (d.CrossSections.getD []).map CrossSection.Id

/-- `node_ids`. -/
def nodeIds (d : Doc) : List String := (d.PointConnections.getD []).map Node.Id

/-- `surf_ids`. -/
def surfIds (d : Doc) : List String := (d.SurfaceMembers.getD []).map Surface.Id

/-- `bar_ids`. -/
def barIds (d : Doc) : List String := (d.CurveMembers.getD []).map Bar.Id

/-- How a Python f-string renders `x.get('Name')`: the name when present,
the text `None` when the key is absent (no fallback to the id). -/
def pyName : Option String → String
  | some n => n
  | none => "None"

/-- Message of the cross-section→material check.  (The source wraps the name
in single quotes; that punctuation is elided here, which affects no claim.) -/
def csMatMsg (name : String) : String :=
  "Sección " ++ name ++ " → material inexistente"

/-- Message of the bar→cross-section check. -/
def barCsMsg (name : String) : String :=
  "Barra " ++ name ++ " → sección inexistente"

/-- Message of the bar→node check (carries the dangling node id). -/
def barNodeMsg (name nid : String) : String :=
  "Barra " ++ name ++ " → nodo " ++ nid ++ " inexistente"

/-- Message of the surface→node check (carries the dangling node id). -/
def surfNodeMsg (name nid : String) : String :=
  "Superficie " ++ name ++ " → nodo " ++ nid ++ " inexistente"

/-- Message of the support→node check. -/
def supMsg (name : String) : String :=
  "Apoyo " ++ name ++ " → nodo inexistente"

/-- Message of the opening→surface check. -/
def openMsg (name : String) : String :=
  "Abertura " ++ name ++ " → superficie inexistente"

/-- Issues a single cross-section contributes:
`for mid in cs.get("Materials", []): if mid not in mat_ids: issues.append(...)`. -/
def csCheck (d : Doc) (cs : CrossSection) : List String :=
  cs.Materials.filterMap
    (fun mid => if mid ∈ matIds d then none else some (csMatMsg (pyName cs.Name)))

/-- Issues the bar→cross-section check contributes for one bar:
`if b.get("CrossSection", "") and b["CrossSection"] not in cs_ids`. -/
def barCsCheck (d : Doc) (b : Bar) : List String :=
  if b.CrossSection.getD "" ≠ "" ∧ b.CrossSection.getD "" ∉ csIds d then
    [barCsMsg (pyName b.Name)]
  else []

/-- Issues the bar→node check contributes for one bar. -/
def barNodeCheck (d : Doc) (b : Bar) : List String :=
  b.Nodes.filterMap
    (fun nid => if nid ∈ nodeIds d then none else some (barNodeMsg (pyName b.Name) nid))

/-- Issues the surface→node check contributes for one surface. -/
def surfNodeCheck (d : Doc) (s : Surface) : List String :=
  s.Nodes.filterMap
    (fun nid => if nid ∈ nodeIds d then none else some (surfNodeMsg (pyName s.Name) nid))

/-- Issues the support→node check contributes:
`if sup.get("Node", "") and sup["Node"] not in node_ids`. -/
def supCheck (d : Doc) (sup : Support) : List String :=
  if sup.Node.getD "" ≠ "" ∧ sup.Node.getD "" ∉ nodeIds d then
    [supMsg (pyName sup.Name)]
  else []

/-- Issues the opening→surface check contributes (no non-emptiness guard):
`if o.get("Surface", "") not in surf_ids`. -/
def openCheck (d : Doc) (o : Opening) : List String :=
  if o.Surface.getD "" ∉ surfIds d then [openMsg (pyName o.Name)] else []

/-- The `issues` list of `render_validation`, in source order. -/
def validationIssues (d : Doc) : List String :=
  (d.CrossSections.getD []).flatMap (csCheck d)
    ++ (d.CurveMembers.getD []).flatMap (fun b => barCsCheck d b ++ barNodeCheck d b)
    ++ (d.SurfaceMembers.getD []).flatMap (surfNodeCheck d)
    ++ (d.PointSupports.getD []).flatMap (supCheck d)
    ++ (d.SurfaceMemberOpenings.getD []).flatMap (openCheck d)

/-- `r1d_o = set(r.get("Member") for r in data.get("Results1D", [])) - bar_ids`
(the distinct owner ids of 1D results that name no existing bar; a deduplicated
list models the Python set — only membership and cardinality are used). -/
def r1dOrphans (d : Doc) : List String :=
  (((d.Results1D.getD []).map RRec.Member).dedup).filter (fun x => x ∉ barIds d)

/-- `mr_o = set(r.get("Member") for r in data.get("MeshResults", [])) - surf_ids`. -/
def meshOrphans (d : Doc) : List String :=
  (((d.MeshResults.getD []).map RRec.Member).dedup).filter (fun x => x ∉ surfIds d)

/-- `z1 = sum(1 for r in data.get("Results1D", []) if nz_ratio_1d(r) == 0)`. -/
def z1Count (d : Doc) : ℕ :=
  ((d.Results1D.getD []).filter (fun r => decide (nz_ratio_1d r = 0))).length

/-- `zm = sum(1 for r in data.get("MeshResults", []) if nz_ratio_mesh(r) == 0)`. -/
def zmCount (d : Doc) : ℕ :=
  ((d.MeshResults.getD []).filter (fun r => decide (nz_ratio_mesh r = 0))).length

/-- Whether a collection key is present with zero records
(`isinstance(v, list) and len(v) == 0`). -/
def presentEmpty {α : Type} : Option (List α) → Bool
  | some l => l.isEmpty
  | none => false

/-- `empty = [k for k, v in data.items() if isinstance(v, list) and len(v) == 0]`,
over the collections of the document model. -/
def emptyDeclared (d : Doc) : List String :=
  (if presentEmpty d.Materials then ["Materials"] else [])
    ++ (if presentEmpty d.CrossSections then ["CrossSections"] else [])
    ++ (if presentEmpty d.PointConnections then ["PointConnections"] else [])
    ++ (if presentEmpty d.CurveMembers then ["CurveMembers"] else [])
    ++ (if presentEmpty d.SurfaceMembers then ["SurfaceMembers"] else [])
    ++ (if presentEmpty d.SurfaceMemberOpenings then ["SurfaceMemberOpenings"] else [])
    ++ (if presentEmpty d.PointSupports then ["PointSupports"] else [])
    ++ (if presentEmpty d.LoadCases then ["LoadCases"] else [])
    ++ (if presentEmpty d.LoadCombinations then ["LoadCombinations"] else [])
    ++ (if presentEmpty d.Results1D then ["Results1D"] else [])
    ++ (if presentEmpty d.MeshResults then ["MeshResults"] else [])

/-- `f"Results1D: {len(r1d_o)} barras huérfanas"`. -/
def orphan1dMsg (n : ℕ) : String :=
  "Results1D: " ++ toString n ++ " barras huérfanas"

/-- `f"MeshResults: {len(mr_o)} paneles huérfanos"`. -/
def orphanMeshMsg (n : ℕ) : String :=
  "MeshResults: " ++ toString n ++ " paneles huérfanos"

/-- `f"Results1D: {z1}/{len(...)} vacíos"`. -/
def empty1dMsg (z t : ℕ) : String :=
  "Results1D: " ++ toString z ++ "/" ++ toString t ++ " vacíos"

/-- `f"MeshResults: {zm}/{len(...)} vacíos"`. -/
def emptyMeshMsg (z t : ℕ) : String :=
  "MeshResults: " ++ toString z ++ "/" ++ toString t ++ " vacíos"

/-- `f"Entidades vacías: {', '.join(empty)}"`. -/
def emptyCollMsg (ks : List String) : String :=
  "Entidades vacías: " ++ String.intercalate ", " ks

/-- The `warns` list of `render_validation`, in source order. -/
def validationWarns (d : Doc) : List String :=
  (if r1dOrphans d ≠ [] then [orphan1dMsg (r1dOrphans d).length] else [])
    ++ (if meshOrphans d ≠ [] then [orphanMeshMsg (meshOrphans d).length] else [])
    ++ (if z1Count d ≠ 0 then [empty1dMsg (z1Count d) (d.Results1D.getD []).length] else [])
    ++ (if zmCount d ≠ 0 then [emptyMeshMsg (zmCount d) (d.MeshResults.getD []).length] else [])
    ++ (if emptyDeclared d ≠ [] then [emptyCollMsg (emptyDeclared d)] else [])

/-! ### Substring test (to state that a message carries a given id or name) -/

/-- Whether `pre` is an initial segment of `l`. -/
def charsStart : List Char → List Char → Bool
  | [], _ => true
  | _ :: _, [] => false
  | a :: pre, b :: l => a == b && charsStart pre l

/-- Whether `needle` occurs as a contiguous segment of `hay`. -/
def charsSub (needle : List Char) : List Char → Bool
  | [] => charsStart needle []
  | b :: l => charsStart needle (b :: l) || charsSub needle l

/-- Whether the string `needle` occurs inside the string `hay`. -/
def strContains (hay needle : String) : Bool :=
  charsSub needle.data hay.data

/-! ### Spec-side predicates for the clean-report property (§4.5 / §8) -/

/-- No dangling references, by the spec's §4.2 enumeration of checks. -/
def NoDangling (d : Doc) : Prop :=
  (∀ cs ∈ d.CrossSections.getD [], ∀ mid ∈ cs.Materials, mid ∈ matIds d)
    ∧ (∀ b ∈ d.CurveMembers.getD [],
        (b.CrossSection.getD "" ≠ "" → b.CrossSection.getD "" ∈ csIds d)
          ∧ ∀ nid ∈ b.Nodes, nid ∈ nodeIds d)
    ∧ (∀ s ∈ d.SurfaceMembers.getD [], ∀ nid ∈ s.Nodes, nid ∈ nodeIds d)
    ∧ (∀ sup ∈ d.PointSupports.getD [],
        sup.Node.getD "" ≠ "" → sup.Node.getD "" ∈ nodeIds d)
    ∧ (∀ o ∈ d.SurfaceMemberOpenings.getD [], o.Surface.getD "" ∈ surfIds d)

/-- No orphaned result owners: every result's owner id names existing geometry. -/
def NoOrphans (d : Doc) : Prop :=
  (∀ r ∈ d.Results1D.getD [], r.Member ∈ barIds d)
    ∧ (∀ r ∈ d.MeshResults.getD [], r.Member ∈ surfIds d)

/-- No result record with non-zero ratio 0. -/
def NoEmptyRatio (d : Doc) : Prop :=
  (∀ r ∈ d.Results1D.getD [], nz_ratio_1d r ≠ 0)
    ∧ (∀ r ∈ d.MeshResults.getD [], nz_ratio_mesh r ≠ 0)

/-- No collection is present with zero records. -/
def NoEmptyDeclared (d : Doc) : Prop :=
  presentEmpty d.Materials = false ∧ presentEmpty d.CrossSections = false
    ∧ presentEmpty d.PointConnections = false ∧ presentEmpty d.CurveMembers = false
    ∧ presentEmpty d.SurfaceMembers = false ∧ presentEmpty d.SurfaceMemberOpenings = false
    ∧ presentEmpty d.PointSupports = false ∧ presentEmpty d.LoadCases = false
    ∧ presentEmpty d.LoadCombinations = false ∧ presentEmpty d.Results1D = false
    ∧ presentEmpty d.MeshResults = false

/-- The number of unresolved references of a document, counted per reference
(spec §4.2: one issue per unresolved reference). -/
def danglingCount (d : Doc) : ℕ :=
  ((d.CrossSections.getD []).map
      (fun cs => (cs.Materials.filter (fun mid => mid ∉ matIds d)).length)).sum
    + ((d.CurveMembers.getD []).map
        (fun b =>
          (if b.CrossSection.getD "" ≠ "" ∧ b.CrossSection.getD "" ∉ csIds d then 1 else 0)
            + (b.Nodes.filter (fun nid => nid ∉ nodeIds d)).length)).sum
    + ((d.SurfaceMembers.getD []).map
        (fun s => (s.Nodes.filter (fun nid => nid ∉ nodeIds d)).length)).sum
    + ((d.PointSupports.getD []).map
        (fun sup =>
          if sup.Node.getD "" ≠ "" ∧ sup.Node.getD "" ∉ nodeIds d then 1 else 0)).sum
    + ((d.SurfaceMemberOpenings.getD []).map
        (fun o => if o.Surface.getD "" ∉ surfIds d then 1 else 0)).sum

/-! ### Concrete scenario inputs -/

/-- Scenario B record: `aN = [0, 0, 0]`, every other component `[]`. -/
def recB : Result1D :=
  ⟨"B1", "L1", fun c => match c with | .aN => [0, 0, 0] | _ => []⟩

/-- Scenario C record: `aVz = [0, 5.2, 0]`, every other component `[]`
(`5.2 = 26/5`). -/
def recC : Result1D :=
  ⟨"B1", "L1", fun c => match c with | .aVz => [0, 26 / 5, 0] | _ => []⟩

/-- Scenario D, first mesh record for `("P1", "L1")`. -/
def recD1 : MeshResult :=
  ⟨"P1", "L1", fun c => match c with | .amx => [1] | _ => []⟩

/-- Scenario D, second mesh record for the same `("P1", "L1")` pair,
with different values. -/
def recD2 : MeshResult :=
  ⟨"P1", "L1", fun c => match c with | .amx => [2] | _ => []⟩

/-- Scenario E record: owner `"X9"` (no bar has this id), with a non-zero
component so that no sparsity warning fires. -/
def recE : Result1D :=
  ⟨"X9", "L1", fun c => match c with | .aN => [1] | _ => []⟩

/-- Scenario A bar: `CrossSection` id `"CS-missing"`. -/
def barA : Bar := ⟨"B1", some "B1", some "CS-missing", []⟩

/-- Scenario A document: one bar referencing `"CS-missing"`, no
`CrossSections` collection at all. -/
def docA : Doc :=
  ⟨none, none, none, some [barA], none, none, none, none, none, none, none⟩

/-- Scenario E document: one 1D result whose owner matches no bar. -/
def docE : Doc :=
  ⟨none, none, none, none, none, none, none, none, none, some [recE], none⟩

/-- An opening with an absent `Surface` field (for the unconditional
opening→surface check). -/
def openingX : Opening := ⟨some "O1", none⟩

/-- A document containing only `openingX`. -/
def docX : Doc :=
  ⟨none, none, none, none, none, some [openingX], none, none, none, none, none⟩

/-- Two order-independence witness records with distinct owners. -/
def recW1 : Result1D :=
  ⟨"B1", "L1", fun c => match c with | .aN => [1] | _ => []⟩

/-- Second order-independence witness record. -/
def recW2 : Result1D :=
  ⟨"B2", "L1", fun c => match c with | .aN => [0] | _ => []⟩

/-! ## Helper lemmas about the classifier -/

theorem compNonzero_iff {C : Type} (r : RRec C) (c : C) :
    compNonzero r c = true ↔ ∃ v ∈ r.vals c, tol < |v| := by
  simp [compNonzero, List.any_eq_true]

theorem nzCount_le {C : Type} (comps : List C) (r : RRec C) :
    nzCount comps r ≤ comps.length :=
  List.length_filter_le _ _

theorem nzRatio_trichotomy {C : Type} (comps : List C) (r : RRec C) :
    nzRatio comps r = 0 ∨ (0 < nzRatio comps r ∧ nzRatio comps r < 1)
      ∨ nzRatio comps r = 1 := by
  have hle : nzCount comps r ≤ comps.length := nzCount_le comps r
  rcases Nat.eq_zero_or_pos (nzCount comps r) with h0 | hpos
  · left
    simp [nzRatio, h0]
  · rcases eq_or_lt_of_le hle with he | hlt
    · right; right
      have hn : (comps.length : ℚ) ≠ 0 := by
        have hpos' : 0 < comps.length := lt_of_lt_of_le hpos hle
        exact_mod_cast Nat.pos_iff_ne_zero.mp hpos'
      rw [nzRatio, he]
      exact div_self hn
    · right; left
      have hk : (0 : ℚ) < (nzCount comps r : ℚ) := by exact_mod_cast hpos
      have hnq : (0 : ℚ) < (comps.length : ℚ) := by
        exact_mod_cast lt_of_le_of_lt (Nat.zero_le _) hlt
      constructor
      · exact div_pos hk hnq
      · rw [nzRatio, div_lt_one hnq]
        exact_mod_cast hlt

theorem counts_partition {C : Type} (comps : List C) (l : List (RRec C)) :
    fullCount comps l + midCount comps l + emptyCount comps l = totalCount l := by
  induction l with
  | nil => rfl
  | cons r t ih =>
    have h1 : fullCount comps (r :: t)
        = (if nzRatio comps r = 1 then 1 else 0) + fullCount comps t := by
      simp only [fullCount, List.filter_cons]
      split <;> rename_i h <;> simp only [decide_eq_true_eq] at h <;>
        simp [h, List.length_cons, Nat.add_comm]
    have h2 : midCount comps (r :: t)
        = (if 0 < nzRatio comps r ∧ nzRatio comps r < 1 then 1 else 0)
            + midCount comps t := by
      simp only [midCount, List.filter_cons]
      split <;> rename_i h <;> simp only [decide_eq_true_eq] at h <;>
        simp [h, List.length_cons, Nat.add_comm]
    have h3 : emptyCount comps (r :: t)
        = (if nzRatio comps r = 0 then 1 else 0) + emptyCount comps t := by
      simp only [emptyCount, List.filter_cons]
      split <;> rename_i h <;> simp only [decide_eq_true_eq] at h <;>
        simp [h, List.length_cons, Nat.add_comm]
    rw [h1, h2, h3, totalCount, List.length_cons]
    rcases nzRatio_trichotomy comps r with h | ⟨ha, hb⟩ | h
    · rw [if_neg (by rw [h]; norm_num), if_neg (by rw [h]; norm_num), if_pos h]
      rw [totalCount] at ih
      omega
    · rw [if_neg (by intro he; rw [he] at hb; exact absurd hb (by norm_num)),
        if_pos ⟨ha, hb⟩, if_neg (by intro he; rw [he] at ha; exact absurd ha (by norm_num))]
      rw [totalCount] at ih
      omega
    · rw [if_pos h, if_neg (fun hc => absurd (h ▸ hc.2) (by norm_num)),
        if_neg (by rw [h]; norm_num)]
      rw [totalCount] at ih
      omega

/-! ## C2 and C3 -/

/-- C2: for every result collection (1D and mesh), including the empty one,
`total = complete + partial + empty`, where complete counts records with
ratio exactly 1, partial those with ratio strictly between 0 and 1, and
empty those with ratio exactly 0. -/
theorem C2_total_partition :
    (∀ l : List Result1D,
        totalCount l
          = fullCount COMPS_1D l + midCount COMPS_1D l + emptyCount COMPS_1D l)
      ∧ (∀ l : List MeshResult,
        totalCount l
          = fullCount COMPS_MESH l + midCount COMPS_MESH l + emptyCount COMPS_MESH l) :=
  ⟨fun l => (counts_partition COMPS_1D l).symm,
    fun l => (counts_partition COMPS_MESH l).symm⟩

/-- C3: a component is classified non-zero iff some element of its sequence
has absolute value strictly above `1e-6` (so an absent, empty, all-zero or
all-small sequence classifies zero); the ratio is the non-zero component
count over 6 (1D) or 8 (mesh); and the Scenario B record (`aN = [0,0,0]`,
other components `[]`) has ratio 0 and is classified Empty. -/
theorem C3_nonzero_classification :
    (∀ (r : Result1D) (c : Comp1D),
        compNonzero r c = true ↔ ∃ v ∈ r.vals c, tol < |v|)
      ∧ (∀ (r : MeshResult) (c : CompMesh),
        compNonzero r c = true ↔ ∃ v ∈ r.vals c, tol < |v|)
      ∧ (∀ r : Result1D, nz_ratio_1d r = (nzCount COMPS_1D r : ℚ) / 6)
      ∧ (∀ r : MeshResult, nz_ratio_mesh r = (nzCount COMPS_MESH r : ℚ) / 8)
      ∧ (nz_ratio_1d recB = 0 ∧ emptyCount COMPS_1D [recB] = 1
          ∧ fullCount COMPS_1D [recB] = 0 ∧ midCount COMPS_1D [recB] = 0) := by
  refine ⟨fun r c => compNonzero_iff r c, fun r c => compNonzero_iff r c, ?_, ?_, ?_⟩
  · intro r
    rw [nz_ratio_1d, nzRatio]
    norm_num [COMPS_1D]
  · intro r
    rw [nz_ratio_mesh, nzRatio]
    norm_num [COMPS_MESH]
  · refine ⟨by decide, by decide, by decide, by decide⟩

/-! ## Helper lemmas about the per-owner fold -/

theorem foldl_max_out (l : List ℚ) (a x : ℚ) :
    l.foldl max (max a x) = max (l.foldl max a) x := by
  induction l generalizing a with
  | nil => rfl
  | cons y t ih =>
    simp only [List.foldl_cons]
    rw [sup_right_comm a x y, ih]

theorem foldl_max_swap (l1 l2 : List ℚ) (a : ℚ) :
    l2.foldl max (l1.foldl max a) = l1.foldl max (l2.foldl max a) := by
  induction l1 generalizing a with
  | nil => rfl
  | cons x t ih =>
    simp only [List.foldl_cons]
    rw [ih (max a x), foldl_max_out]

theorem updSummary_comm {C : Type} (comps : List C) (s : OwnerSummary C) (r1 r2 : RRec C) :
    updSummary comps (updSummary comps s r1) r2
      = updSummary comps (updSummary comps s r2) r1 := by
  refine OwnerSummary.ext ?_ ?_ ?_
  · by_cases h1 : 0 < nzRatio comps r1 <;> by_cases h2 : 0 < nzRatio comps r2 <;>
      simp [updSummary, h1, h2]
  · by_cases h1 : 0 < nzRatio comps r1 <;> by_cases h2 : 0 < nzRatio comps r2 <;>
      simp [updSummary, h1, h2]
  · funext c
    simp only [updSummary, updMax]
    rw [foldl_max_swap]

theorem ownerFold_apply {C : Type} (comps : List C)
    (m : String → Option (OwnerSummary C)) (l : List (RRec C)) (bid : String) :
    (l.foldl (stepSummary comps) m) bid
      = (l.filter (fun r => decide (r.Member = bid))).foldl
          (fun o r => some (updSummary comps (o.getD (initSummary C)) r)) (m bid) := by
  induction l generalizing m with
  | nil => rfl
  | cons r t ih =>
    simp only [List.foldl_cons, List.filter_cons]
    rw [ih]
    by_cases h : r.Member = bid
    · rw [if_pos (by simp [h]), List.foldl_cons]
      have hs : (stepSummary comps m r) bid
          = some (updSummary comps ((m bid).getD (initSummary C)) r) := by
        rw [stepSummary, if_pos h.symm, h]
      rw [hs]
    · rw [if_neg (by simp [h])]
      have hs : (stepSummary comps m r) bid = m bid := by
        rw [stepSummary, if_neg (fun hh => h hh.symm)]
      rw [hs]

theorem foldl_some_upd {C : Type} (comps : List C) (s : OwnerSummary C)
    (l : List (RRec C)) :
    l.foldl (fun o r => some (updSummary comps (o.getD (initSummary C)) r)) (some s)
      = some (l.foldl (updSummary comps) s) := by
  induction l generalizing s with
  | nil => rfl
  | cons r t ih =>
    simp only [List.foldl_cons, Option.getD_some]
    exact ih _

theorem ownerSummary_none {C : Type} (comps : List C) (l : List (RRec C)) (bid : String)
    (h : l.filter (fun r => decide (r.Member = bid)) = []) :
    ownerSummary comps l bid = none := by
  rw [ownerSummary, ownerFold_apply, h]
  rfl

theorem ownerSummary_some {C : Type} (comps : List C) (l : List (RRec C)) (bid : String)
    (r0 : RRec C) (t : List (RRec C))
    (h : l.filter (fun r => decide (r.Member = bid)) = r0 :: t) :
    ownerSummary comps l bid
      = some ((r0 :: t).foldl (updSummary comps) (initSummary C)) := by
  rw [ownerSummary, ownerFold_apply, h, List.foldl_cons, List.foldl_cons,
    Option.getD_none]
  exact foldl_some_upd comps _ t

theorem foldl_comm_perm {α β : Type _} (f : β → α → β)
    (rc : ∀ s a b, f (f s a) b = f (f s b) a) :
    ∀ {l1 l2 : List α}, l1.Perm l2 → ∀ s, l1.foldl f s = l2.foldl f s := by
  intro l1 l2 h
  induction h with
  | nil => intro s; rfl
  | cons x h ih =>
    intro s
    simp only [List.foldl_cons]
    exact ih _
  | swap x y l =>
    intro s
    simp only [List.foldl_cons]
    rw [rc]
  | trans h1 h2 ih1 ih2 =>
    intro s
    rw [ih1 s, ih2 s]

theorem ownerSummary_perm {C : Type} (comps : List C) {l1 l2 : List (RRec C)}
    (h : l1.Perm l2) (bid : String) :
    ownerSummary comps l1 bid = ownerSummary comps l2 bid := by
  rw [ownerSummary, ownerSummary, ownerFold_apply, ownerFold_apply]
  exact foldl_comm_perm _
    (fun o r1 r2 => by
      simp only [Option.getD_some]
      rw [updSummary_comm])
    (h.filter _) _

theorem perm_summary_counts {C : Type} (comps : List C) {l1 l2 : List (RRec C)}
    (h : l1.Perm l2) :
    (∀ bid, ownerSummary comps l1 bid = ownerSummary comps l2 bid)
      ∧ totalCount l1 = totalCount l2
      ∧ fullCount comps l1 = fullCount comps l2
      ∧ midCount comps l1 = midCount comps l2
      ∧ emptyCount comps l1 = emptyCount comps l2 :=
  ⟨fun bid => ownerSummary_perm comps h bid, h.length_eq,
    (h.filter _).length_eq, (h.filter _).length_eq, (h.filter _).length_eq⟩

theorem foldl_upd_max_vals {C : Type} (comps : List C) (c : C) (l : List (RRec C))
    (s : OwnerSummary C) :
    (l.foldl (updSummary comps) s).max_vals c
      = (l.flatMap (fun r => (r.vals c).map (fun v => |v|))).foldl max (s.max_vals c) := by
  induction l generalizing s with
  | nil => rfl
  | cons r t ih =>
    simp only [List.foldl_cons, List.flatMap_cons, List.foldl_append]
    rw [ih]
    rfl

theorem foldl_max_le (l : List ℚ) (a : ℚ) :
    a ≤ l.foldl max a ∧ ∀ x ∈ l, x ≤ l.foldl max a := by
  induction l generalizing a with
  | nil => exact ⟨le_refl a, by simp⟩
  | cons y t ih =>
    simp only [List.foldl_cons, List.mem_cons]
    refine ⟨le_trans (le_max_left a y) (ih (max a y)).1, ?_⟩
    rintro x (rfl | hx)
    · exact le_trans (le_max_right a x) (ih _).1
    · exact (ih _).2 x hx

theorem foldl_max_mem (l : List ℚ) (a : ℚ) :
    l.foldl max a = a ∨ l.foldl max a ∈ l := by
  induction l generalizing a with
  | nil => left; rfl
  | cons y t ih =>
    simp only [List.foldl_cons, List.mem_cons]
    rcases ih (max a y) with h | h
    · rcases max_cases a y with ⟨he, _⟩ | ⟨he, _⟩
      · left; rw [h, he]
      · right; left; rw [h, he]
    · right; right; exact h

theorem ownerSummary_max_vals {C : Type} (comps : List C) (l : List (RRec C))
    (bid : String) (c : C) (s : OwnerSummary C)
    (h : ownerSummary comps l bid = some s) :
    s.max_vals c = specOwnerMax l bid c := by
  cases hf : l.filter (fun r => decide (r.Member = bid)) with
  | nil => rw [ownerSummary_none comps l bid hf] at h; cases h
  | cons r0 t =>
    rw [ownerSummary_some comps l bid r0 t hf] at h
    have hs := Option.some.inj h
    rw [← hs, foldl_upd_max_vals, specOwnerMax, ownerAbsVals, hf]
    rfl

theorem resultIndex_lastMatch {C : Type} (l : List (RRec C)) (k : String × String) :
    resultIndex l k
      = (l.filter (fun r => decide ((r.Member, r.Load) = k))).getLast? := by
  have key : ∀ m : String × String → Option (RRec C),
      (l.foldl stepIndex m) k
        = ((l.filter (fun r => decide ((r.Member, r.Load) = k))).getLast?).or (m k) := by
    induction l with
    | nil => intro m; rfl
    | cons r t ih =>
      intro m
      simp only [List.foldl_cons, List.filter_cons]
      rw [ih]
      by_cases h : (r.Member, r.Load) = k
      · rw [if_pos (by simp [h])]
        cases hg : (t.filter (fun r => decide ((r.Member, r.Load) = k))).getLast? with
        | some r' => simp [List.getLast?_cons, hg]
        | none =>
          have hnil : t.filter (fun r => decide ((r.Member, r.Load) = k)) = [] := by
            cases hf : t.filter (fun r => decide ((r.Member, r.Load) = k)) with
            | nil => rfl
            | cons a u => rw [hf] at hg; simp [List.getLast?_cons] at hg
          rw [hnil] at hg ⊢
          simp [stepIndex, h.symm]
      · rw [if_neg (by simp [h])]
        have hs : (stepIndex m r) k = m k := by
          rw [stepIndex, if_neg (fun hh => h hh.symm)]
        rw [hs]
  rw [resultIndex, key]
  cases (l.filter (fun r => decide ((r.Member, r.Load) = k))).getLast? <;> rfl

/-! ## C1, C4 and C5 -/

/-- C1: permuting the records of a 1D or mesh result collection changes
neither the per-owner summary (nonzero/zero counts and per-component maxima)
nor the total and the three completeness counts. -/
theorem C1_order_independence :
    (∀ {l1 l2 : List Result1D}, l1.Perm l2 →
      (∀ bid, ownerSummary COMPS_1D l1 bid = ownerSummary COMPS_1D l2 bid)
        ∧ totalCount l1 = totalCount l2
        ∧ fullCount COMPS_1D l1 = fullCount COMPS_1D l2
        ∧ midCount COMPS_1D l1 = midCount COMPS_1D l2
        ∧ emptyCount COMPS_1D l1 = emptyCount COMPS_1D l2)
      ∧ (∀ {m1 m2 : List MeshResult}, m1.Perm m2 →
        (∀ pid, ownerSummary COMPS_MESH m1 pid = ownerSummary COMPS_MESH m2 pid)
          ∧ totalCount m1 = totalCount m2
          ∧ fullCount COMPS_MESH m1 = fullCount COMPS_MESH m2
          ∧ midCount COMPS_MESH m1 = midCount COMPS_MESH m2
          ∧ emptyCount COMPS_MESH m1 = emptyCount COMPS_MESH m2) :=
  ⟨fun h => perm_summary_counts COMPS_1D h, fun h => perm_summary_counts COMPS_MESH h⟩

/-- Witness for C1 at a concrete two-record permutation. -/
theorem C1_order_independence_w :
    ([recW1, recW2].Perm [recW2, recW1])
      ∧ ownerSummary COMPS_1D [recW1, recW2] "B1"
          = ownerSummary COMPS_1D [recW2, recW1] "B1"
      ∧ fullCount COMPS_1D [recW1, recW2] = fullCount COMPS_1D [recW2, recW1] :=
  ⟨List.Perm.swap recW2 recW1 [],
    (C1_order_independence.1 (List.Perm.swap recW2 recW1 [])).1 "B1",
    (C1_order_independence.1 (List.Perm.swap recW2 recW1 [])).2.2.1⟩

/-- C4: for every owner with at least one record, the summary's
per-component entry equals the maximum of the absolute values of every
element of that component across the owner's records (default 0): it equals
the fold of `max` over those absolute values started at 0, it bounds every
such value from above, and it is 0 or attained; and Scenario C (one record
with `aVz = [0, 5.2, 0]`, others empty) has ratio 1/6, is classified
Partial, and yields `max_vals aVz = 5.2`. -/
theorem C4_owner_max :
    (∀ (l : List Result1D) (bid : String) (c : Comp1D) (s : OwnerSummary Comp1D),
        ownerSummary COMPS_1D l bid = some s →
          s.max_vals c = specOwnerMax l bid c
            ∧ (∀ x ∈ ownerAbsVals l bid c, x ≤ s.max_vals c)
            ∧ (s.max_vals c = 0 ∨ s.max_vals c ∈ ownerAbsVals l bid c))
      ∧ (∀ (l : List MeshResult) (pid : String) (c : CompMesh) (s : OwnerSummary CompMesh),
        ownerSummary COMPS_MESH l pid = some s →
          s.max_vals c = specOwnerMax l pid c
            ∧ (∀ x ∈ ownerAbsVals l pid c, x ≤ s.max_vals c)
            ∧ (s.max_vals c = 0 ∨ s.max_vals c ∈ ownerAbsVals l pid c))
      ∧ (nz_ratio_1d recC = 1 / 6 ∧ midCount COMPS_1D [recC] = 1
          ∧ (ownerSummary COMPS_1D [recC] "B1").map (fun s => s.max_vals Comp1D.aVz)
              = some (26 / 5)) := by
  refine ⟨?_, ?_, by decide, by decide, by decide⟩
  · intro l bid c s h
    have he := ownerSummary_max_vals COMPS_1D l bid c s h
    refine ⟨he, ?_, ?_⟩
    · intro x hx
      rw [he, specOwnerMax]
      exact (foldl_max_le (ownerAbsVals l bid c) 0).2 x hx
    · rw [he, specOwnerMax]
      exact foldl_max_mem (ownerAbsVals l bid c) 0
  · intro l pid c s h
    have he := ownerSummary_max_vals COMPS_MESH l pid c s h
    refine ⟨he, ?_, ?_⟩
    · intro x hx
      rw [he, specOwnerMax]
      exact (foldl_max_le (ownerAbsVals l pid c) 0).2 x hx
    · rw [he, specOwnerMax]
      exact foldl_max_mem (ownerAbsVals l pid c) 0

/-- Witness for C4 at the Scenario C record. -/
theorem C4_owner_max_w :
    (updSummary COMPS_1D (initSummary Comp1D) recC).max_vals Comp1D.aVz
      = specOwnerMax [recC] "B1" Comp1D.aVz :=
  (C4_owner_max.1 [recC] "B1" Comp1D.aVz
    (updSummary COMPS_1D (initSummary Comp1D) recC) rfl).1

/-- C5: duplicate `(owner, load)` pairs are not an error: `result_index`
maps every key to the last record of the collection carrying that key,
while totals, the completeness counts and the owner's nonzero/zero counts
still reflect every record — at the concrete Scenario D input (two mesh
records with the same key and different values), the index retains only
the second record and the summary counts both. -/
theorem C5_duplicate_keys :
    (∀ (C : Type) (l : List (RRec C)) (k : String × String),
        resultIndex l k
          = (l.filter (fun r => decide ((r.Member, r.Load) = k))).getLast?)
      ∧ (resultIndex [recD1, recD2] ("P1", "L1") = some recD2
          ∧ totalCount [recD1, recD2] = 2
          ∧ fullCount COMPS_MESH [recD1, recD2] + midCount COMPS_MESH [recD1, recD2]
              + emptyCount COMPS_MESH [recD1, recD2] = 2
          ∧ midCount COMPS_MESH [recD1, recD2] = 2
          ∧ (ownerSummary COMPS_MESH [recD1, recD2] "P1").map (fun s => (s.nonzero, s.zero))
              = some (2, 0)) :=
  ⟨fun C l k => resultIndex_lastMatch l k,
    rfl, rfl, by decide, by decide, by decide⟩

/-! ## Helper lemmas about the validation checks -/

theorem if_prop_nil {α : Type _} (c : Prop) [Decidable c] (x : α) :
    (if c then [x] else []) = ([] : List α) ↔ ¬c := by
  split <;> rename_i h <;> simp [h]

theorem csCheck_nil_iff (d : Doc) (cs : CrossSection) :
    csCheck d cs = [] ↔ ∀ mid ∈ cs.Materials, mid ∈ matIds d := by
  rw [csCheck, List.filterMap_eq_nil_iff]
  constructor
  · intro h mid hm
    by_contra hn
    have hh := h mid hm
    rw [if_neg hn] at hh
    cases hh
  · intro h mid hm
    rw [if_pos (h mid hm)]

theorem barCsCheck_nil_iff (d : Doc) (b : Bar) :
    barCsCheck d b = []
      ↔ (b.CrossSection.getD "" ≠ "" → b.CrossSection.getD "" ∈ csIds d) := by
  rw [barCsCheck]
  split <;> rename_i h
  · exact iff_of_false (List.cons_ne_nil _ _) (fun hr => absurd (hr h.1) h.2)
  · push_neg at h
    exact iff_of_true rfl h

theorem barNodeCheck_nil_iff (d : Doc) (b : Bar) :
    barNodeCheck d b = [] ↔ ∀ nid ∈ b.Nodes, nid ∈ nodeIds d := by
  rw [barNodeCheck, List.filterMap_eq_nil_iff]
  constructor
  · intro h nid hm
    by_contra hn
    have hh := h nid hm
    rw [if_neg hn] at hh
    cases hh
  · intro h nid hm
    rw [if_pos (h nid hm)]

theorem surfNodeCheck_nil_iff (d : Doc) (s : Surface) :
    surfNodeCheck d s = [] ↔ ∀ nid ∈ s.Nodes, nid ∈ nodeIds d := by
  rw [surfNodeCheck, List.filterMap_eq_nil_iff]
  constructor
  · intro h nid hm
    by_contra hn
    have hh := h nid hm
    rw [if_neg hn] at hh
    cases hh
  · intro h nid hm
    rw [if_pos (h nid hm)]

theorem supCheck_nil_iff (d : Doc) (sup : Support) :
    supCheck d sup = []
      ↔ (sup.Node.getD "" ≠ "" → sup.Node.getD "" ∈ nodeIds d) := by
  rw [supCheck]
  split <;> rename_i h
  · exact iff_of_false (List.cons_ne_nil _ _) (fun hr => absurd (hr h.1) h.2)
  · push_neg at h
    exact iff_of_true rfl h

theorem openCheck_nil_iff (d : Doc) (o : Opening) :
    openCheck d o = [] ↔ o.Surface.getD "" ∈ surfIds d := by
  rw [openCheck]
  split <;> rename_i h
  · exact iff_of_false (List.cons_ne_nil _ _) h
  · exact iff_of_true rfl (not_not.mp h)

theorem issues_nil_iff (d : Doc) : validationIssues d = [] ↔ NoDangling d := by
  rw [validationIssues, NoDangling]
  simp only [List.append_eq_nil, List.flatMap_eq_nil_iff]
  constructor
  · rintro ⟨⟨⟨⟨h1, h2⟩, h3⟩, h4⟩, h5⟩
    refine ⟨fun cs hcs => (csCheck_nil_iff d cs).mp (h1 cs hcs),
      fun b hb => ?_,
      fun s hs => (surfNodeCheck_nil_iff d s).mp (h3 s hs),
      fun sup hsup => (supCheck_nil_iff d sup).mp (h4 sup hsup),
      fun o ho => (openCheck_nil_iff d o).mp (h5 o ho)⟩
    have hb2 := h2 b hb
    exact ⟨(barCsCheck_nil_iff d b).mp hb2.1, (barNodeCheck_nil_iff d b).mp hb2.2⟩
  · rintro ⟨h1, h2, h3, h4, h5⟩
    refine ⟨⟨⟨⟨fun cs hcs => (csCheck_nil_iff d cs).mpr (h1 cs hcs),
      fun b hb => ?_⟩,
      fun s hs => (surfNodeCheck_nil_iff d s).mpr (h3 s hs)⟩,
      fun sup hsup => (supCheck_nil_iff d sup).mpr (h4 sup hsup)⟩,
      fun o ho => (openCheck_nil_iff d o).mpr (h5 o ho)⟩
    exact ⟨(barCsCheck_nil_iff d b).mpr ((h2 b hb).1),
      (barNodeCheck_nil_iff d b).mpr ((h2 b hb).2)⟩

theorem r1dOrphans_nil_iff (d : Doc) :
    r1dOrphans d = [] ↔ ∀ r ∈ d.Results1D.getD [], r.Member ∈ barIds d := by
  rw [r1dOrphans, List.filter_eq_nil_iff]
  constructor
  · intro h r hr
    have hx := h r.Member (List.mem_dedup.mpr (List.mem_map.mpr ⟨r, hr, rfl⟩))
    simpa using hx
  · intro h x hx
    rw [List.mem_dedup] at hx
    rcases List.mem_map.mp hx with ⟨r, hr, rfl⟩
    simp [h r hr]

theorem meshOrphans_nil_iff (d : Doc) :
    meshOrphans d = [] ↔ ∀ r ∈ d.MeshResults.getD [], r.Member ∈ surfIds d := by
  rw [meshOrphans, List.filter_eq_nil_iff]
  constructor
  · intro h r hr
    have hx := h r.Member (List.mem_dedup.mpr (List.mem_map.mpr ⟨r, hr, rfl⟩))
    simpa using hx
  · intro h x hx
    rw [List.mem_dedup] at hx
    rcases List.mem_map.mp hx with ⟨r, hr, rfl⟩
    simp [h r hr]

theorem z1Count_zero_iff (d : Doc) :
    z1Count d = 0 ↔ ∀ r ∈ d.Results1D.getD [], nz_ratio_1d r ≠ 0 := by
  rw [z1Count, List.length_eq_zero, List.filter_eq_nil_iff]
  simp

theorem zmCount_zero_iff (d : Doc) :
    zmCount d = 0 ↔ ∀ r ∈ d.MeshResults.getD [], nz_ratio_mesh r ≠ 0 := by
  rw [zmCount, List.length_eq_zero, List.filter_eq_nil_iff]
  simp

theorem if_bool_nil (b : Bool) (k : String) :
    (if b = true then [k] else []) = ([] : List String) ↔ b = false := by
  cases b <;> simp

theorem emptyDeclared_nil_iff (d : Doc) :
    emptyDeclared d = [] ↔ NoEmptyDeclared d := by
  rw [emptyDeclared, NoEmptyDeclared]
  simp only [List.append_eq_nil, if_bool_nil, and_assoc]

theorem warns_nil_iff (d : Doc) :
    validationWarns d = []
      ↔ (r1dOrphans d = [] ∧ meshOrphans d = [] ∧ z1Count d = 0 ∧ zmCount d = 0
          ∧ emptyDeclared d = []) := by
  rw [validationWarns]
  simp only [List.append_eq_nil, if_prop_nil, not_not, ne_eq, and_assoc]

/-! ## C7: clean report iff no anomalies -/

/-- C7: the audit report has zero errors and zero warnings iff the document
has no dangling references, no orphaned result owners, no result records
with non-zero ratio 0, and no collection present with zero records. -/
theorem C7_clean_iff (d : Doc) :
    (validationIssues d).length + (validationWarns d).length = 0
      ↔ NoDangling d ∧ NoOrphans d ∧ NoEmptyRatio d ∧ NoEmptyDeclared d := by
  rw [show (validationIssues d).length + (validationWarns d).length = 0
      ↔ (validationIssues d).length = 0 ∧ (validationWarns d).length = 0 from by omega]
  rw [List.length_eq_zero, List.length_eq_zero, issues_nil_iff, warns_nil_iff]
  rw [r1dOrphans_nil_iff, meshOrphans_nil_iff, z1Count_zero_iff, zmCount_zero_iff,
    emptyDeclared_nil_iff, NoOrphans, NoEmptyRatio]
  tauto

/-! ## C6: what an issue carries -/

theorem length_filterMap_ite {α β : Type _} (p : α → Prop) [DecidablePred p]
    (g : α → β) (l : List α) :
    (l.filterMap (fun a => if p a then none else some (g a))).length
      = (l.filter (fun a => decide ¬p a)).length := by
  induction l with
  | nil => rfl
  | cons a t ih =>
    simp only [List.filterMap_cons, List.filter_cons]
    by_cases h : p a
    · rw [if_pos h, if_neg (by simp [h]), ih]
    · rw [if_neg h, if_pos (by simp [h])]
      simp [ih]

theorem length_flatMap' {α β : Type _} (l : List α) (f : α → List β) :
    (l.flatMap f).length = (l.map (fun a => (f a).length)).sum := by
  induction l with
  | nil => rfl
  | cons a t ih => simp [List.flatMap_cons, ih]

theorem csCheck_length (d : Doc) (cs : CrossSection) :
    (csCheck d cs).length
      = (cs.Materials.filter (fun mid => mid ∉ matIds d)).length :=
  length_filterMap_ite (fun mid => mid ∈ matIds d) _ _

theorem barCsCheck_length (d : Doc) (b : Bar) :
    (barCsCheck d b).length
      = if b.CrossSection.getD "" ≠ "" ∧ b.CrossSection.getD "" ∉ csIds d
          then 1 else 0 := by
  rw [barCsCheck]
  split <;> rename_i h <;> simp [h]

theorem barNodeCheck_length (d : Doc) (b : Bar) :
    (barNodeCheck d b).length
      = (b.Nodes.filter (fun nid => nid ∉ nodeIds d)).length :=
  length_filterMap_ite (fun nid => nid ∈ nodeIds d) _ _

theorem surfNodeCheck_length (d : Doc) (s : Surface) :
    (surfNodeCheck d s).length
      = (s.Nodes.filter (fun nid => nid ∉ nodeIds d)).length :=
  length_filterMap_ite (fun nid => nid ∈ nodeIds d) _ _

theorem supCheck_length (d : Doc) (sup : Support) :
    (supCheck d sup).length
      = if sup.Node.getD "" ≠ "" ∧ sup.Node.getD "" ∉ nodeIds d then 1 else 0 := by
  rw [supCheck]
  split <;> rename_i h <;> simp [h]

theorem openCheck_length (d : Doc) (o : Opening) :
    (openCheck d o).length = if o.Surface.getD "" ∉ surfIds d then 1 else 0 := by
  rw [openCheck]
  split <;> rename_i h <;> simp [h]

/-- C6 counterexample: at the Scenario A document the Reference Validator
emits exactly one issue, and that issue does not carry the dangling id
`CS-missing` (so the claim that every issue carries the dangling id fails). -/
theorem C6_counterexample :
    validationIssues docA = [barCsMsg "B1"]
      ∧ strContains (barCsMsg "B1") "CS-missing" = false := by
  refine ⟨by decide, by decide⟩

/-- C6 (amended): for each unresolved reference exactly one issue is emitted
(the issue count equals the unresolved-reference count), and at Scenario A the
single issue references the bar by its name; the issue does not carry the
dangling id (only node-reference issues do), and an absent name renders as
the text `None` rather than falling back to the id. -/
theorem C6_issue_per_reference :
    (∀ d : Doc, (validationIssues d).length = danglingCount d)
      ∧ validationIssues docA = [barCsMsg "B1"]
      ∧ strContains (barCsMsg "B1") "B1" = true := by
  refine ⟨?_, by decide, by decide⟩
  intro d
  rw [validationIssues, danglingCount, List.length_append, List.length_append,
    List.length_append, List.length_append, length_flatMap', length_flatMap',
    length_flatMap', length_flatMap', length_flatMap']
  rw [show (fun cs => (csCheck d cs).length)
      = (fun cs : CrossSection =>
          (cs.Materials.filter (fun mid => mid ∉ matIds d)).length)
    from funext fun cs => csCheck_length d cs]
  rw [show (fun b => (barCsCheck d b ++ barNodeCheck d b).length)
      = (fun b : Bar =>
          (if b.CrossSection.getD "" ≠ "" ∧ b.CrossSection.getD "" ∉ csIds d
            then 1 else 0)
            + (b.Nodes.filter (fun nid => nid ∉ nodeIds d)).length)
    from funext fun b => by
      rw [List.length_append, barCsCheck_length, barNodeCheck_length]]
  rw [show (fun s => (surfNodeCheck d s).length)
      = (fun s : Surface => (s.Nodes.filter (fun nid => nid ∉ nodeIds d)).length)
    from funext fun s => surfNodeCheck_length d s]
  rw [show (fun sup => (supCheck d sup).length)
      = (fun sup : Support =>
          if sup.Node.getD "" ≠ "" ∧ sup.Node.getD "" ∉ nodeIds d then 1 else 0)
    from funext fun sup => supCheck_length d sup]
  rw [show (fun o => (openCheck d o).length)
      = (fun o : Opening => if o.Surface.getD "" ∉ surfIds d then 1 else 0)
    from funext fun o => openCheck_length d o]

/-! ## C8, C9 and C10 -/

/-- C8: a bar's cross-section reference is validated only when the field is a
non-empty string: an absent or empty field contributes no issue, and a
non-empty id outside the cross-section id set contributes exactly one issue. -/
theorem C8_cross_section_guard (d : Doc) (b : Bar)
    (_hb : b ∈ d.CurveMembers.getD []) :
    ((b.CrossSection = none ∨ b.CrossSection = some "") → barCsCheck d b = [])
      ∧ (∀ cs : String, b.CrossSection = some cs → cs ≠ "" → cs ∉ csIds d →
          barCsCheck d b = [barCsMsg (pyName b.Name)]) := by
  constructor
  · rintro (h | h) <;> simp [barCsCheck, h]
  · intro cs hcs hne hnin
    rw [barCsCheck, if_pos]
    rw [hcs]
    exact ⟨hne, hnin⟩

/-- Witness for C8 at the Scenario A bar. -/
theorem C8_cross_section_guard_w :
    barCsCheck docA barA = [barCsMsg (pyName barA.Name)] :=
  (C8_cross_section_guard docA barA (by decide)).2 "CS-missing" rfl
    (by decide) (by decide)

/-- C9: the Orphan Detector computes exactly the distinct result-owner ids
absent from the corresponding geometry id set; a non-empty orphan set is
reported as a warning; and at the Scenario E document (one 1D result whose
owner matches no bar) the warning fires while the Reference Validator emits
no error. -/
theorem C9_orphan_detector :
    (∀ (d : Doc) (x : String),
        x ∈ r1dOrphans d
          ↔ (∃ r ∈ d.Results1D.getD [], r.Member = x) ∧ x ∉ barIds d)
      ∧ (∀ (d : Doc) (x : String),
        x ∈ meshOrphans d
          ↔ (∃ r ∈ d.MeshResults.getD [], r.Member = x) ∧ x ∉ surfIds d)
      ∧ (∀ d : Doc, r1dOrphans d ≠ [] →
          orphan1dMsg (r1dOrphans d).length ∈ validationWarns d)
      ∧ (validationIssues docE = [] ∧ validationWarns docE = [orphan1dMsg 1]) := by
  refine ⟨?_, ?_, ?_, by decide, by decide⟩
  · intro d x
    rw [r1dOrphans]
    simp [List.mem_filter, List.mem_dedup, List.mem_map]
  · intro d x
    rw [meshOrphans]
    simp [List.mem_filter, List.mem_dedup, List.mem_map]
  · intro d h
    rw [validationWarns, if_pos h]
    simp [List.mem_append]

/-- Witness for C9 at the Scenario E document. -/
theorem C9_orphan_detector_w :
    orphan1dMsg (r1dOrphans docE).length ∈ validationWarns docE :=
  C9_orphan_detector.2.2.1 docE (by decide)

/-- C10: the opening→surface reference check has no non-emptiness guard: in
any document where no surface has the empty string as id, an opening whose
`Surface` field is absent or empty always yields a dangling-reference error. -/
theorem C10_opening_unconditional (d : Doc) (o : Opening)
    (hs : "" ∉ surfIds d) (ho : o ∈ d.SurfaceMemberOpenings.getD [])
    (hsurf : o.Surface = none ∨ o.Surface = some "") :
    openMsg (pyName o.Name) ∈ validationIssues d := by
  have hcheck : openCheck d o = [openMsg (pyName o.Name)] := by
    rcases hsurf with h | h <;> simp [openCheck, h, hs]
  have hmem : openMsg (pyName o.Name)
      ∈ (d.SurfaceMemberOpenings.getD []).flatMap (openCheck d) :=
    List.mem_flatMap.mpr ⟨o, ho, by rw [hcheck]; exact List.mem_singleton_self _⟩
  rw [validationIssues]
  simp only [List.mem_append]
  exact Or.inr hmem

/-- Witness for C10 at a one-opening document. -/
theorem C10_opening_unconditional_w :
    openMsg (pyName openingX.Name) ∈ validationIssues docX :=
  C10_opening_unconditional docX openingX (by decide) (by decide) (Or.inl rfl)

end JSAF

